import Mathlib

/-! Shallow embedding of the `dilib` dependency-injection container
(`src/injector.ts`, `src/injection-token.ts`, `src/types.d.ts`).

The JS runtime state is modelled explicitly:
* identifiers (class constructors / injection tokens) are values compared by
  reference identity, modelled by a numeric id plus their display string;
* the registry `Map<Identifier, StoreItem>` stores *shared, mutable* StoreItem
  objects, modelled by an association list from identifiers to StoreItem ids
  plus a heap of StoreItems, so that dual-registration aliasing is visible;
* plain JS objects produced by factories live in a separate object heap keyed
  by allocation address, so reference equality of instances is decidable;
* a JS `throw` unwinds but leaves all mutations in place, so `resolve` always
  returns the post-state together with an `Except` outcome;
* factories are arbitrary client code that may call back into `resolve`; they
  are embedded as a small command language (`Factory`): allocate a fresh
  object whose named fields are dependencies resolved with default options,
  return a primitive, or throw.  A ghost per-StoreItem invocation counter
  (`calls`) records how often each factory has run; it influences nothing.
* recursion through re-entrant `resolve` calls is made total with a fuel
  parameter; running out of fuel is the JS stack overflow.
-/

namespace DiLib

/-- An identifier: either a class constructor or an `InjectionToken`.  The
`id` field models JS reference identity (two tokens with the same description
are distinct); the string is the constructor's string form resp. the token's
`_desc`. -/
inductive Identifier where
  | ctor (id : Nat) (name : String)
  | token (id : Nat) (desc : String)
deriving DecidableEq, Repr

/-- JS primitive (non-object) values, as far as the container can observe
them: truthiness and `typeof`. -/
inductive Prim where
  | null
  | undef
  | str (s : String)
  | num (n : Int)
  | bool (b : Bool)
deriving DecidableEq, Repr

/-- A JS value as seen by the container: a heap object (by address), a
deferred-reference proxy produced by the cycle branch of `Injector.get`
(which captures only the identifier it was created for), or a primitive. -/
inductive Value where
  | obj (addr : Nat)
  | proxy (key : Identifier)
  | prim (p : Prim)
deriving DecidableEq, Repr

/-- JS truthiness, used by `if (storeItem.instance)`. -/
def Value.truthy : Value → Bool
  | .obj _ => true
  | .proxy _ => true
  | .prim .null => false
  | .prim .undef => false
  | .prim (.str s) => s != ""
  | .prim (.num n) => n != 0
  | .prim (.bool b) => b

/-- Whether `typeof v === 'object'` holds in JS (note `typeof null` is
`'object'`; a Proxy is an object). -/
def Value.typeofObject : Value → Bool
  | .obj _ => true
  | .proxy _ => true
  | .prim .null => true
  | .prim _ => false

/-- A factory `(injector, params) => instance`, embedded as a command:
either build a fresh object whose fields are dependencies obtained by
re-entrant `injector.get` calls with default options (the idiom the spec
describes for wiring a dependency graph), return a primitive, or throw. -/
inductive Factory where
  | newObj (deps : List (String × Identifier))
  | retPrim (p : Prim)
  | throwErr (msg : String)
deriving DecidableEq, Repr

/-- `StoreItem` of `types.d.ts`: `{ initialized, factory, instance }` with
`instance` starting as JS `null`. -/
structure StoreItem where
  initialized : Bool
  factory : Factory
  «instance» : Value
deriving DecidableEq, Repr

/-- Errors the container can raise.  `userError` is an exception thrown by a
factory; `typeError` is a JS `TypeError` from `Reflect` on a non-object;
`outOfFuel` models a stack overflow of unbounded re-entrant recursion. -/
inductive DIError where
  | notRegistered (msg : String)
  | instanceNotFound (msg : String)
  | userError (msg : String)
  | typeError
  | outOfFuel
deriving DecidableEq, Repr

/-- Association-list lookup (first binding wins), modelling `Map.get` with
reference-identity keys. -/
def alookup {α β : Type} [DecidableEq α] : List (α × β) → α → Option β
  | [], _ => none
  | (k, v) :: rest, key => if k = key then some v else alookup rest key

/-- Association-list update (overwrite in place or append), modelling
`Map.set`. -/
def aset {α β : Type} [DecidableEq α] : List (α × β) → α → β → List (α × β)
  | [], key, v => [(key, v)]
  | (k, w) :: rest, key, v =>
      if k = key then (key, v) :: rest else (k, w) :: aset rest key v

/-- The whole mutable world of one `Injector`: its registry (identifier →
StoreItem id), the StoreItem heap, the heap of plain objects built by
factories, allocation counters, and the ghost factory-invocation counters. -/
structure InjectorState where
  registry : List (Identifier × Nat)
  items : List (Nat × StoreItem)
  objects : List (Nat × List (String × Value))
  nextItem : Nat
  nextAddr : Nat
  calls : List (Nat × Nat)
deriving DecidableEq, Repr

/-- A freshly constructed `Injector` (`new Map()`). -/
def emptyInjector : InjectorState :=
  { registry := [], items := [], objects := [], nextItem := 0, nextAddr := 0,
    calls := [] }

/-- `GetOptions` of `types.d.ts`; `singleton` defaults to `true` as in
`const { singleton = true, params } = options`. -/
structure GetOptions where
  singleton : Bool := true
  params : Option Value := none
deriving DecidableEq, Repr

/-- The default (empty) options object of `injector.get(Key)`. -/
def defaultOpts : GetOptions := {}

/-- The string form of an identifier: the token's description (its
`toString`) or the constructor's name. -/
def identDesc : Identifier → String
  | .ctor _ n => n
  | .token _ d => d

/-- The "not registered" message: `InjectionToken.find` throws
`Token ${this._desc} is not registered`, `Injector.get` throws
`${Key} is not registered` for non-token keys. -/
def notRegisteredMsg : Identifier → String
  | .ctor _ n => n ++ " is not registered"
  | .token _ d => "Token " ++ d ++ " is not registered"

/-- The message of `DI: instance of ${Key} not found` raised by the deferred
reference's handlers. -/
def instNotFoundMsg (key : Identifier) : String :=
  "DI: instance of " ++ identDesc key ++ " not found"

/-- `storeItem.initialized = true` on the shared item `sid`. -/
def setInitialized (st : InjectorState) (sid : Nat) : InjectorState :=
  match alookup st.items sid with
  | none => st
  | some item =>
      { st with items := aset st.items sid { item with initialized := true } }

/-- `storeItem.instance = v` on the shared item `sid`. -/
def setInstance (st : InjectorState) (sid : Nat) (v : Value) : InjectorState :=
  match alookup st.items sid with
  | none => st
  | some item =>
      { st with items := aset st.items sid { item with «instance» := v } }

/-- Ghost bookkeeping: one more invocation of `sid`'s factory. -/
def bumpCalls (st : InjectorState) (sid : Nat) : InjectorState :=
  { st with
    calls := aset st.calls sid ((alookup st.calls sid).getD 0 + 1) }

/-- `Injector.add(factory, key, token?)`: build one fresh StoreItem
(`initialized: false, instance: null`) and insert it under the token (when
supplied) and under the key. -/
def Injector.add (st : InjectorState) (factory : Factory) (key : Identifier)
    (token : Option Identifier) : InjectorState :=
  let sid := st.nextItem
  let item : StoreItem :=
    { initialized := false, factory := factory, «instance» := .prim .null }
  let reg1 := match token with
    | some t => aset st.registry t sid
    | none => st.registry
  { st with
    registry := aset reg1 key sid,
    items := aset st.items sid item,
    nextItem := sid + 1,
    calls := aset st.calls sid 0 }

/-- The shape of the `injector.get` callback a factory receives (dependency
acquisition inside a factory body always uses default options). -/
def Resolver : Type :=
  InjectorState → Identifier → InjectorState × Except DIError Value

/-- Resolve each dependency of a factory body in order through the injector
callback (`injector.get(K)` inside the factory), stopping at the first
error. -/
def resolveDeps (res : Resolver) :
    InjectorState → List (String × Identifier) →
      InjectorState × Except DIError (List (String × Value))
  | st, [] => (st, .ok [])
  | st, (f, k) :: rest =>
    match res st k with
    | (st1, .error e) => (st1, .error e)
    | (st1, .ok v) =>
      match resolveDeps res st1 rest with
      | (st2, .error e) => (st2, .error e)
      | (st2, .ok flds) => (st2, .ok ((f, v) :: flds))

/-- Run the factory of item `sid` (ghost-counting the invocation), handing it
the injector callback as its first argument: allocate a fresh object whose
fields are the resolved dependencies, return a primitive, or throw.
`_params` is the factory's second argument; a command-language factory does
not consume it. -/
def runFactory (res : Resolver) (st : InjectorState) (sid : Nat)
    (fac : Factory) (_params : Option Value) :
    InjectorState × Except DIError Value :=
  let st0 := bumpCalls st sid
  match fac with
  | .retPrim p => (st0, .ok (.prim p))
  | .throwErr msg => (st0, .error (.userError msg))
  | .newObj deps =>
    match resolveDeps res st0 deps with
    | (st1, .error e) => (st1, .error e)
    | (st1, .ok flds) =>
      let addr := st1.nextAddr
      ({ st1 with objects := aset st1.objects addr flds,
                  nextAddr := addr + 1 },
       .ok (.obj addr))

/-- `Injector.get(Key, options)`.  Returns the post-state even on an error,
since JS mutations survive a `throw`.  Steps mirror the source: look the
StoreItem up (token `find` or direct map lookup, each with its own
"not registered" message); transient resolution just runs the factory;
an initialized item returns its truthy instance or, when the instance slot
is still empty, a deferred-reference proxy capturing the key; otherwise set
`initialized` *before* invoking the factory, then store its result into
`instance` and return it.  Re-entrant `get` calls made by the factory burn
one unit of fuel per nesting level. -/
def resolve : Nat → InjectorState → Identifier → GetOptions →
    InjectorState × Except DIError Value
  | 0, st, _, _ => (st, .error .outOfFuel)
  | fuel + 1, st, key, opts =>
    match alookup st.registry key with
    | none => (st, .error (.notRegistered (notRegisteredMsg key)))
    | some sid =>
      match alookup st.items sid with
      | none => (st, .error .typeError)
      | some item =>
        if opts.singleton = false then
          runFactory (fun s k => resolve fuel s k defaultOpts) st sid
            item.factory opts.params
        else if item.initialized then
          if item.«instance».truthy then (st, .ok item.«instance»)
          else (st, .ok (.proxy key))
        else
          let st1 := setInitialized st sid
          match runFactory (fun s k => resolve fuel s k defaultOpts) st1 sid
              item.factory opts.params with
          | (st2, .error e) => (st2, .error e)
          | (st2, .ok v) => (setInstance st2 sid v, .ok v)

/-- The `get` handler of the deferred-reference proxy: re-resolve the
captured identifier with default options, require the target to be an
object (else `DI: instance of ${Key} not found`), then `Reflect.get`
forwards the read — a field read on a heap object (missing fields are
`undefined`), triggering the handler again when the target is itself a
proxy, and a `TypeError` on `null`. -/
def proxyGet (fuel : Nat) (st : InjectorState) (key : Identifier)
    (prop : String) : InjectorState × Except DIError Value :=
  match fuel with
  | 0 => (st, .error .outOfFuel)
  | fuel + 1 =>
    match resolve (fuel + 1) st key defaultOpts with
    | (st1, .error e) => (st1, .error e)
    | (st1, .ok target) =>
      if target.typeofObject = false then
        (st1, .error (.instanceNotFound (instNotFoundMsg key)))
      else
        match target with
        | .obj addr =>
          match alookup st1.objects addr with
          | none => (st1, .error .typeError)
          | some flds =>
            (st1, .ok ((alookup flds prop).getD (.prim .undef)))
        | .proxy k2 => proxyGet fuel st1 k2 prop
        | .prim _ => (st1, .error .typeError)

/-- The `set` handler of the deferred-reference proxy: re-resolve the
captured identifier with default options, require an object target, then
`Reflect.set` forwards the write (returning the boolean `Reflect.set`
result). -/
def proxySet (fuel : Nat) (st : InjectorState) (key : Identifier)
    (prop : String) (v : Value) : InjectorState × Except DIError Bool :=
  match fuel with
  | 0 => (st, .error .outOfFuel)
  | fuel + 1 =>
    match resolve (fuel + 1) st key defaultOpts with
    | (st1, .error e) => (st1, .error e)
    | (st1, .ok target) =>
      if target.typeofObject = false then
        (st1, .error (.instanceNotFound (instNotFoundMsg key)))
      else
        match target with
        | .obj addr =>
          match alookup st1.objects addr with
          | none => (st1, .error .typeError)
          | some flds =>
            ({ st1 with objects := aset st1.objects addr (aset flds prop v) },
             .ok true)
        | .proxy k2 => proxySet fuel st1 k2 prop v
        | .prim _ => (st1, .error .typeError)

/-- How a single resolution can change one shared StoreItem:
`itemStep a b` says `b` is a state the StoreItem `a` may evolve to across
one (arbitrarily re-entrant) resolution — its factory is never reassigned,
an initialized item is completely frozen, and any change at all flips
`initialized` to true. -/
def itemStep (a b : StoreItem) : Prop :=
  b.factory = a.factory ∧ (a.initialized = true → b = a) ∧
    (b.initialized = false → b = a)

/-- Evolution of the whole injector state across one resolution: the
registry and the StoreItem allocator are untouched, and every StoreItem
evolves by `itemStep`. -/
def stEvolves (st st' : InjectorState) : Prop :=
  st'.registry = st.registry ∧ st'.nextItem = st.nextItem ∧
    ∀ sid a, alookup st.items sid = some a →
      ∃ b, alookup st'.items sid = some b ∧ itemStep a b

/-- The ghost invocation counter of an item that is already initialized is
not moved by an operation taking `st` to `st'`. -/
def callsPreserved (st st' : InjectorState) : Prop :=
  ∀ sid a, alookup st.items sid = some a → a.initialized = true →
    alookup st'.calls sid = alookup st.calls sid

/-- Whether a value is a deferred-reference proxy. -/
def Value.isProxy : Value → Bool
  | .proxy _ => true
  | _ => false

/-- No StoreItem's instance slot holds a deferred-reference proxy.  This is
true of every state the container itself produces: factories hand back
fresh objects or primitives, never the cycle-branch proxy. -/
def noProxyInstancesB (st : InjectorState) : Bool :=
  st.items.all fun p => !(p.2.«instance».isProxy)

/-- The state after a factory registered for `A` returned the primitive
string `"x"`, which the container memoized as A's singleton instance. -/
def primInstanceState : InjectorState :=
  (resolve 1 (Injector.add emptyInjector (.retPrim (.str "x"))
    (.ctor 0 "A") none) (.ctor 0 "A") defaultOpts).1

/-! Association-list lemmas -/

theorem alookup_aset_self {α β : Type} [DecidableEq α] (l : List (α × β))
    (k : α) (v : β) : alookup (aset l k v) k = some v := by
  induction l with
  | nil => simp [aset, alookup]
  | cons p rest ih =>
    obtain ⟨a, w⟩ := p
    by_cases h : a = k
    · subst h; simp [aset, alookup]
    · simp [aset, alookup, h, ih]

theorem alookup_aset_ne {α β : Type} [DecidableEq α] (l : List (α × β))
    {k k' : α} (v : β) (h : k ≠ k') :
    alookup (aset l k v) k' = alookup l k' := by
  induction l with
  | nil => simp [aset, alookup, h]
  | cons p rest ih =>
    obtain ⟨a, w⟩ := p
    by_cases ha : a = k
    · subst ha; simp [aset, alookup, h]
    · simp [aset, alookup, ha, ih]

/-! State-helper lemmas -/

@[simp] theorem bumpCalls_registry (st : InjectorState) (sid : Nat) :
    (bumpCalls st sid).registry = st.registry := rfl

@[simp] theorem bumpCalls_items (st : InjectorState) (sid : Nat) :
    (bumpCalls st sid).items = st.items := rfl

@[simp] theorem bumpCalls_nextItem (st : InjectorState) (sid : Nat) :
    (bumpCalls st sid).nextItem = st.nextItem := rfl

@[simp] theorem bumpCalls_objects (st : InjectorState) (sid : Nat) :
    (bumpCalls st sid).objects = st.objects := rfl

@[simp] theorem setInitialized_registry (st : InjectorState) (sid : Nat) :
    (setInitialized st sid).registry = st.registry := by
  unfold setInitialized; cases alookup st.items sid <;> rfl

@[simp] theorem setInitialized_nextItem (st : InjectorState) (sid : Nat) :
    (setInitialized st sid).nextItem = st.nextItem := by
  unfold setInitialized; cases alookup st.items sid <;> rfl

@[simp] theorem setInitialized_calls (st : InjectorState) (sid : Nat) :
    (setInitialized st sid).calls = st.calls := by
  unfold setInitialized; cases alookup st.items sid <;> rfl

@[simp] theorem setInstance_registry (st : InjectorState) (sid : Nat)
    (v : Value) : (setInstance st sid v).registry = st.registry := by
  unfold setInstance; cases alookup st.items sid <;> rfl

@[simp] theorem setInstance_nextItem (st : InjectorState) (sid : Nat)
    (v : Value) : (setInstance st sid v).nextItem = st.nextItem := by
  unfold setInstance; cases alookup st.items sid <;> rfl

@[simp] theorem setInstance_calls (st : InjectorState) (sid : Nat)
    (v : Value) : (setInstance st sid v).calls = st.calls := by
  unfold setInstance; cases alookup st.items sid <;> rfl

theorem setInitialized_items_self {st : InjectorState} {sid : Nat}
    {item : StoreItem} (h : alookup st.items sid = some item) :
    alookup (setInitialized st sid).items sid
      = some { item with initialized := true } := by
  unfold setInitialized; rw [h]; exact alookup_aset_self ..

theorem setInitialized_items_ne {st : InjectorState} {sid sid' : Nat}
    (h : sid ≠ sid') :
    alookup (setInitialized st sid).items sid' = alookup st.items sid' := by
  unfold setInitialized
  cases alookup st.items sid with
  | none => rfl
  | some item => exact alookup_aset_ne _ _ h

theorem setInstance_items_self {st : InjectorState} {sid : Nat}
    {item : StoreItem} (v : Value) (h : alookup st.items sid = some item) :
    alookup (setInstance st sid v).items sid
      = some { item with «instance» := v } := by
  unfold setInstance; rw [h]; exact alookup_aset_self ..

theorem setInstance_items_ne {st : InjectorState} {sid sid' : Nat} (v : Value)
    (h : sid ≠ sid') :
    alookup (setInstance st sid v).items sid' = alookup st.items sid' := by
  unfold setInstance
  cases alookup st.items sid with
  | none => rfl
  | some item => exact alookup_aset_ne _ _ h

@[simp] theorem bumpCalls_calls_self (st : InjectorState) (sid : Nat) :
    alookup (bumpCalls st sid).calls sid
      = some ((alookup st.calls sid).getD 0 + 1) := by
  unfold bumpCalls; exact alookup_aset_self ..

theorem bumpCalls_calls_ne (st : InjectorState) {sid sid' : Nat}
    (h : sid ≠ sid') :
    alookup (bumpCalls st sid).calls sid' = alookup st.calls sid' := by
  unfold bumpCalls; exact alookup_aset_ne _ _ h

theorem itemStep_refl (a : StoreItem) : itemStep a a :=
  ⟨rfl, fun _ => rfl, fun _ => rfl⟩

theorem itemStep_trans {a b c : StoreItem} (hab : itemStep a b)
    (hbc : itemStep b c) : itemStep a c := by
  obtain ⟨f1, i1, j1⟩ := hab
  obtain ⟨f2, i2, j2⟩ := hbc
  refine ⟨f2.trans f1, ?_, ?_⟩
  · intro ha
    have hb := i1 ha
    have hc : c = b := i2 (by rw [hb]; exact ha)
    rw [hc, hb]
  · intro hc
    have hcb := j2 hc
    have hbf : b.initialized = false := by rw [← hcb]; exact hc
    rw [hcb, j1 hbf]

theorem stEvolves_refl (st : InjectorState) : stEvolves st st :=
  ⟨rfl, rfl, fun _ a h => ⟨a, h, itemStep_refl a⟩⟩

theorem stEvolves_trans {s1 s2 s3 : InjectorState} (h12 : stEvolves s1 s2)
    (h23 : stEvolves s2 s3) : stEvolves s1 s3 := by
  obtain ⟨r12, n12, i12⟩ := h12
  obtain ⟨r23, n23, i23⟩ := h23
  refine ⟨r23.trans r12, n23.trans n12, fun sid a h => ?_⟩
  obtain ⟨b, hb, hab⟩ := i12 sid a h
  obtain ⟨c, hc, hbc⟩ := i23 sid b hb
  exact ⟨c, hc, itemStep_trans hab hbc⟩

theorem stEvolves_of_parts {st st' : InjectorState}
    (hr : st'.registry = st.registry) (hn : st'.nextItem = st.nextItem)
    (hi : st'.items = st.items) : stEvolves st st' :=
  ⟨hr, hn, fun _ a h => ⟨a, hi ▸ h, itemStep_refl a⟩⟩

theorem bumpCalls_evolves (st : InjectorState) (sid : Nat) :
    stEvolves st (bumpCalls st sid) :=
  stEvolves_of_parts rfl rfl rfl

theorem resolveDeps_evolves (res : Resolver)
    (hres : ∀ s k, stEvolves s (res s k).1) :
    ∀ (st : InjectorState) (deps : List (String × Identifier)),
      stEvolves st (resolveDeps res st deps).1 := by
  intro st deps
  induction deps generalizing st with
  | nil => exact stEvolves_refl st
  | cons p rest ih =>
    obtain ⟨f, k⟩ := p
    have h1 : stEvolves st (res st k).1 := hres st k
    rcases hr : res st k with ⟨st1, r⟩
    rw [hr] at h1
    cases r with
    | error e => simpa [resolveDeps, hr] using h1
    | ok v =>
      have h2 : stEvolves st1 (resolveDeps res st1 rest).1 := ih st1
      rcases hd : resolveDeps res st1 rest with ⟨st2, r2⟩
      rw [hd] at h2
      cases r2 with
      | error e => simpa [resolveDeps, hr, hd] using stEvolves_trans h1 h2
      | ok flds => simpa [resolveDeps, hr, hd] using stEvolves_trans h1 h2

theorem runFactory_evolves (res : Resolver)
    (hres : ∀ s k, stEvolves s (res s k).1) (st : InjectorState) (sid : Nat)
    (fac : Factory) (p : Option Value) :
    stEvolves st (runFactory res st sid fac p).1 := by
  have hb : stEvolves st (bumpCalls st sid) := bumpCalls_evolves st sid
  cases fac with
  | retPrim q => simpa [runFactory] using hb
  | throwErr msg => simpa [runFactory] using hb
  | newObj deps =>
    have hd : stEvolves (bumpCalls st sid)
        (resolveDeps res (bumpCalls st sid) deps).1 :=
      resolveDeps_evolves res hres (bumpCalls st sid) deps
    rcases hrd : resolveDeps res (bumpCalls st sid) deps with ⟨st1, r⟩
    rw [hrd] at hd
    cases r with
    | error e => simpa [runFactory, hrd] using stEvolves_trans hb hd
    | ok flds =>
      refine stEvolves_trans (stEvolves_trans hb hd) ?_
      simp only [runFactory, hrd]
      exact stEvolves_of_parts rfl rfl rfl

theorem resolve_evolves :
    ∀ (fuel : Nat) (st : InjectorState) (key : Identifier)
      (opts : GetOptions), stEvolves st (resolve fuel st key opts).1 := by
  intro fuel
  induction fuel with
  | zero => intro st key opts; exact stEvolves_refl st
  | succ n ih =>
    intro st key opts
    have hres : ∀ s k, stEvolves s (resolve n s k defaultOpts).1 :=
      fun s k => ih s k defaultOpts
    cases hreg : alookup st.registry key with
    | none => simp only [resolve, hreg]; exact stEvolves_refl st
    | some sid =>
      cases hitem : alookup st.items sid with
      | none => simp only [resolve, hreg, hitem]; exact stEvolves_refl st
      | some item =>
        by_cases hsing : opts.singleton = false
        · simp only [resolve, hreg, hitem, if_pos hsing]
          exact runFactory_evolves _ hres st sid item.factory opts.params
        · by_cases hinit : item.initialized = true
          · simp only [resolve, hreg, hitem, if_neg hsing, if_pos hinit]
            cases item.«instance».truthy <;> simp <;> exact stEvolves_refl st
          · simp only [resolve, hreg, hitem, if_neg hsing, if_neg hinit]
            have hfalse : item.initialized = false := by
              cases hi : item.initialized
              · rfl
              · exact absurd hi hinit
            have hst1 : stEvolves st (setInitialized st sid) := by
              refine ⟨setInitialized_registry st sid,
                setInitialized_nextItem st sid, fun sid0 a0 h0 => ?_⟩
              by_cases hs : sid = sid0
              · subst hs
                rw [h0] at hitem
                injection hitem with he
                refine ⟨{ a0 with initialized := true },
                  setInitialized_items_self h0, rfl, ?_, ?_⟩
                · intro hc; rw [← he, hc] at hfalse; exact absurd hfalse (by simp)
                · intro hc; simp at hc
              · refine ⟨a0, ?_, itemStep_refl a0⟩
                rw [setInitialized_items_ne hs]; exact h0
            have hrf : stEvolves (setInitialized st sid)
                (runFactory (fun s k => resolve n s k defaultOpts)
                  (setInitialized st sid) sid item.factory opts.params).1 :=
              runFactory_evolves _ hres (setInitialized st sid) sid
                item.factory opts.params
            rcases hr : runFactory (fun s k => resolve n s k defaultOpts)
                (setInitialized st sid) sid item.factory opts.params
              with ⟨st2, r⟩
            rw [hr] at hrf
            cases r with
            | error e => simp only [hr]; exact stEvolves_trans hst1 hrf
            | ok v =>
              simp only [hr]
              have h12 : stEvolves st st2 := stEvolves_trans hst1 hrf
              refine ⟨(setInstance_registry st2 sid v).trans h12.1,
                (setInstance_nextItem st2 sid v).trans h12.2.1,
                fun sid0 a0 h0 => ?_⟩
              by_cases hs : sid = sid0
              · subst hs
                rw [h0] at hitem
                injection hitem with he
                subst he
                have h1 : alookup (setInitialized st sid).items sid
                    = some { a0 with initialized := true } :=
                  setInitialized_items_self h0
                obtain ⟨b, hb, hstep⟩ := hrf.2.2 sid _ h1
                have hbeq : b = { a0 with initialized := true } :=
                  hstep.2.1 rfl
                refine ⟨{ b with «instance» := v },
                  setInstance_items_self v hb, ?_⟩
                rw [hbeq]
                refine ⟨rfl, ?_, ?_⟩
                · intro hc; rw [hc] at hfalse; exact absurd hfalse (by simp)
                · intro hc; simp at hc
              · obtain ⟨b, hb, hab⟩ := h12.2.2 sid0 a0 h0
                refine ⟨b, ?_, hab⟩
                rw [setInstance_items_ne v hs]; exact hb

theorem callsPreserved_refl (st : InjectorState) : callsPreserved st st :=
  fun _ _ _ _ => rfl

theorem callsPreserved_comp {s1 s2 s3 : InjectorState}
    (h12e : stEvolves s1 s2) (h12 : callsPreserved s1 s2)
    (h23 : callsPreserved s2 s3) : callsPreserved s1 s3 := by
  intro sid a ha hinit
  obtain ⟨b, hb, hab⟩ := h12e.2.2 sid a ha
  have hba : b = a := hab.2.1 hinit
  rw [h23 sid b hb (by rw [hba]; exact hinit), h12 sid a ha hinit]

theorem resolveDeps_calls (res : Resolver)
    (hres_ev : ∀ s k, stEvolves s (res s k).1)
    (hres_c : ∀ s k, callsPreserved s (res s k).1) :
    ∀ (st : InjectorState) (deps : List (String × Identifier)),
      callsPreserved st (resolveDeps res st deps).1 := by
  intro st deps
  induction deps generalizing st with
  | nil => exact callsPreserved_refl st
  | cons p rest ih =>
    obtain ⟨f, k⟩ := p
    have h1e : stEvolves st (res st k).1 := hres_ev st k
    have h1c : callsPreserved st (res st k).1 := hres_c st k
    rcases hr : res st k with ⟨st1, r⟩
    rw [hr] at h1e h1c
    cases r with
    | error e => simpa [resolveDeps, hr] using h1c
    | ok v =>
      have h2c : callsPreserved st1 (resolveDeps res st1 rest).1 := ih st1
      rcases hd : resolveDeps res st1 rest with ⟨st2, r2⟩
      rw [hd] at h2c
      cases r2 with
      | error e =>
        simpa [resolveDeps, hr, hd] using callsPreserved_comp h1e h1c h2c
      | ok flds =>
        simpa [resolveDeps, hr, hd] using callsPreserved_comp h1e h1c h2c

theorem runFactory_calls (res : Resolver)
    (hres_ev : ∀ s k, stEvolves s (res s k).1)
    (hres_c : ∀ s k, callsPreserved s (res s k).1)
    (st : InjectorState) (sid : Nat) (fac : Factory) (p : Option Value) :
    ∀ sid0 a, sid0 ≠ sid → alookup st.items sid0 = some a →
      a.initialized = true →
      alookup (runFactory res st sid fac p).1.calls sid0
        = alookup st.calls sid0 := by
  intro sid0 a hne ha hinit
  have hbump : alookup (bumpCalls st sid).calls sid0 = alookup st.calls sid0 :=
    bumpCalls_calls_ne st (fun h => hne h.symm)
  cases fac with
  | retPrim q => simpa [runFactory] using hbump
  | throwErr msg => simpa [runFactory] using hbump
  | newObj deps =>
    have hd : callsPreserved (bumpCalls st sid)
        (resolveDeps res (bumpCalls st sid) deps).1 :=
      resolveDeps_calls res hres_ev hres_c (bumpCalls st sid) deps
    rcases hrd : resolveDeps res (bumpCalls st sid) deps with ⟨st1, r⟩
    rw [hrd] at hd
    have hmid : alookup st1.calls sid0 = alookup st.calls sid0 := by
      rw [hd sid0 a (by rw [bumpCalls_items]; exact ha) hinit, hbump]
    cases r with
    | error e => simpa [runFactory, hrd] using hmid
    | ok flds => simpa [runFactory, hrd] using hmid

theorem resolve_calls :
    ∀ (fuel : Nat) (st : InjectorState) (key : Identifier)
      (opts : GetOptions), opts.singleton = true →
      callsPreserved st (resolve fuel st key opts).1 := by
  intro fuel
  induction fuel with
  | zero => intro st key opts _; exact callsPreserved_refl st
  | succ n ih =>
    intro st key opts hsing
    have hres_ev : ∀ s k, stEvolves s (resolve n s k defaultOpts).1 :=
      fun s k => resolve_evolves n s k defaultOpts
    have hres_c : ∀ s k, callsPreserved s (resolve n s k defaultOpts).1 :=
      fun s k => ih s k defaultOpts rfl
    cases hreg : alookup st.registry key with
    | none => simp only [resolve, hreg]; exact callsPreserved_refl st
    | some sid =>
      cases hitem : alookup st.items sid with
      | none =>
        simp only [resolve, hreg, hitem]; exact callsPreserved_refl st
      | some item =>
        have hsing' : ¬(opts.singleton = false) := by rw [hsing]; simp
        by_cases hinit : item.initialized = true
        · simp only [resolve, hreg, hitem, if_neg hsing', if_pos hinit]
          cases item.«instance».truthy <;> simp <;>
            exact callsPreserved_refl st
        · simp only [resolve, hreg, hitem, if_neg hsing', if_neg hinit]
          intro sid0 a ha hainit
          have hne : sid0 ≠ sid := by
            intro h
            subst h
            rw [ha] at hitem
            injection hitem with he
            rw [← he] at hinit
            exact hinit hainit
          have ha1 : alookup (setInitialized st sid).items sid0 = some a := by
            rw [setInitialized_items_ne (fun h => hne h.symm)]; exact ha
          have hrfc := runFactory_calls _ hres_ev hres_c
            (setInitialized st sid) sid item.factory opts.params sid0 a hne
            ha1 hainit
          rcases hr : runFactory (fun s k => resolve n s k defaultOpts)
              (setInitialized st sid) sid item.factory opts.params
            with ⟨st2, r⟩
          rw [hr] at hrfc
          cases r with
          | error e =>
            simp only [hr]
            rw [hrfc, setInitialized_calls]
          | ok v =>
            simp only [hr]
            rw [setInstance_calls, hrfc, setInitialized_calls]

/-! Branch equations of `resolve` and `runFactory` -/

theorem resolve_zero_eq (st : InjectorState) (key : Identifier)
    (opts : GetOptions) : resolve 0 st key opts = (st, .error .outOfFuel) :=
  rfl

theorem resolve_notRegistered_eq {st : InjectorState} {key : Identifier}
    (fuel : Nat) (opts : GetOptions) (h : alookup st.registry key = none) :
    resolve (fuel + 1) st key opts
      = (st, .error (.notRegistered (notRegisteredMsg key))) := by
  simp [resolve, h]

theorem resolve_transient_eq {st : InjectorState} {key : Identifier}
    {sid : Nat} {item : StoreItem} (fuel : Nat) (opts : GetOptions)
    (hsing : opts.singleton = false)
    (hreg : alookup st.registry key = some sid)
    (hitem : alookup st.items sid = some item) :
    resolve (fuel + 1) st key opts
      = runFactory (fun s k => resolve fuel s k defaultOpts) st sid
          item.factory opts.params := by
  simp [resolve, hreg, hitem, hsing]

theorem resolve_fast_eq {st : InjectorState} {key : Identifier} {sid : Nat}
    {item : StoreItem} (fuel : Nat) (opts : GetOptions)
    (hsing : opts.singleton = true)
    (hreg : alookup st.registry key = some sid)
    (hitem : alookup st.items sid = some item)
    (hinit : item.initialized = true)
    (htr : item.«instance».truthy = true) :
    resolve (fuel + 1) st key opts = (st, .ok item.«instance») := by
  simp [resolve, hreg, hitem, hsing, hinit, htr]

theorem resolve_proxy_eq {st : InjectorState} {key : Identifier} {sid : Nat}
    {item : StoreItem} (fuel : Nat) (opts : GetOptions)
    (hsing : opts.singleton = true)
    (hreg : alookup st.registry key = some sid)
    (hitem : alookup st.items sid = some item)
    (hinit : item.initialized = true)
    (htr : item.«instance».truthy = false) :
    resolve (fuel + 1) st key opts = (st, .ok (.proxy key)) := by
  simp [resolve, hreg, hitem, hsing, hinit, htr]

theorem resolve_uninit_default_eq {st : InjectorState} {key : Identifier}
    {sid : Nat} {item : StoreItem} (fuel : Nat)
    (hreg : alookup st.registry key = some sid)
    (hitem : alookup st.items sid = some item)
    (hfalse : item.initialized = false) :
    resolve (fuel + 1) st key defaultOpts
      = match runFactory (fun s k => resolve fuel s k defaultOpts)
          (setInitialized st sid) sid item.factory none with
        | (st2, .error e) => (st2, .error e)
        | (st2, .ok v) => (setInstance st2 sid v, .ok v) := by
  simp [resolve, hreg, hitem, hfalse, defaultOpts]

theorem runFactory_retPrim_eq (res : Resolver) (st : InjectorState)
    (sid : Nat) (q : Prim) (p : Option Value) :
    runFactory res st sid (.retPrim q) p
      = (bumpCalls st sid, .ok (.prim q)) := rfl

theorem runFactory_throwErr_eq (res : Resolver) (st : InjectorState)
    (sid : Nat) (msg : String) (p : Option Value) :
    runFactory res st sid (.throwErr msg) p
      = (bumpCalls st sid, .error (.userError msg)) := rfl

theorem runFactory_newObj_eq (res : Resolver) (st : InjectorState)
    (sid : Nat) (deps : List (String × Identifier)) (p : Option Value) :
    runFactory res st sid (.newObj deps) p
      = match resolveDeps res (bumpCalls st sid) deps with
        | (st1, .error e) => (st1, .error e)
        | (st1, .ok flds) =>
          ({ st1 with objects := aset st1.objects st1.nextAddr flds,
                      nextAddr := st1.nextAddr + 1 },
           .ok (.obj st1.nextAddr)) := rfl

/-! Characterization of a first (uninitialized) singleton resolution -/

theorem resolve_registry (fuel : Nat) (st : InjectorState) (key : Identifier)
    (opts : GetOptions) :
    (resolve fuel st key opts).1.registry = st.registry :=
  (resolve_evolves fuel st key opts).1

/-- Any run of a factory (through `runFactory`) bumps the invocation counter
of its own StoreItem exactly once, provided that item is already marked
initialized (which `Injector.get` guarantees before a singleton
invocation). -/
theorem runFactory_calls_self (res : Resolver)
    (hres_ev : ∀ s k, stEvolves s (res s k).1)
    (hres_c : ∀ s k, callsPreserved s (res s k).1)
    {st : InjectorState} {sid : Nat} (fac : Factory) (p : Option Value)
    {itm : StoreItem} (hsid : alookup st.items sid = some itm)
    (hinit : itm.initialized = true) :
    alookup (runFactory res st sid fac p).1.calls sid
      = some ((alookup st.calls sid).getD 0 + 1) := by
  cases fac with
  | retPrim q => rw [runFactory_retPrim_eq]; exact bumpCalls_calls_self st sid
  | throwErr msg =>
    rw [runFactory_throwErr_eq]; exact bumpCalls_calls_self st sid
  | newObj deps =>
    rw [runFactory_newObj_eq]
    have hd : callsPreserved (bumpCalls st sid)
        (resolveDeps res (bumpCalls st sid) deps).1 :=
      resolveDeps_calls res hres_ev hres_c (bumpCalls st sid) deps
    rcases hrd : resolveDeps res (bumpCalls st sid) deps with ⟨st1, r⟩
    rw [hrd] at hd
    have hmid : alookup st1.calls sid
        = some ((alookup st.calls sid).getD 0 + 1) := by
      rw [hd sid itm (by rw [bumpCalls_items]; exact hsid) hinit]
      exact bumpCalls_calls_self st sid
    cases r with
    | error e => exact hmid
    | ok flds => exact hmid

/-- A successful first singleton resolution leaves the shared StoreItem with
`initialized = true` and `instance` holding exactly the returned value. -/
theorem resolve_uninit_success {fuel : Nat} {st st' : InjectorState}
    {key : Identifier} {sid : Nat} {item : StoreItem} {v : Value}
    (hreg : alookup st.registry key = some sid)
    (hitem : alookup st.items sid = some item)
    (hfalse : item.initialized = false)
    (hres : resolve (fuel + 1) st key defaultOpts = (st', .ok v)) :
    alookup st'.items sid
      = some { initialized := true, factory := item.factory,
               «instance» := v } := by
  rw [resolve_uninit_default_eq fuel hreg hitem hfalse] at hres
  rcases hr : runFactory (fun s k => resolve fuel s k defaultOpts)
      (setInitialized st sid) sid item.factory none with ⟨st2, r⟩
  rw [hr] at hres
  cases r with
  | error e =>
    injection hres with h1 h2
    exact absurd h2 (by simp)
  | ok w =>
    injection hres with h1 h2
    injection h2 with h2
    subst h2
    subst h1
    have ha1 : alookup (setInitialized st sid).items sid
        = some { item with initialized := true } :=
      setInitialized_items_self hitem
    have hrf : stEvolves (setInitialized st sid) st2 := by
      have := runFactory_evolves (fun s k => resolve fuel s k defaultOpts)
        (fun s k => resolve_evolves fuel s k defaultOpts)
        (setInitialized st sid) sid item.factory none
      rw [hr] at this
      exact this
    obtain ⟨b, hb, hstep⟩ := hrf.2.2 sid _ ha1
    have hbeq : b = { item with initialized := true } := hstep.2.1 rfl
    rw [setInstance_items_self w hb, hbeq]

/-- A first singleton resolution (successful or not) invokes the factory of
its StoreItem exactly once. -/
theorem resolve_uninit_calls {fuel : Nat} {st : InjectorState}
    {key : Identifier} {sid : Nat} {item : StoreItem}
    (hreg : alookup st.registry key = some sid)
    (hitem : alookup st.items sid = some item)
    (hfalse : item.initialized = false) :
    alookup (resolve (fuel + 1) st key defaultOpts).1.calls sid
      = some ((alookup st.calls sid).getD 0 + 1) := by
  rw [resolve_uninit_default_eq fuel hreg hitem hfalse]
  have ha1 : alookup (setInitialized st sid).items sid
      = some { item with initialized := true } :=
    setInitialized_items_self hitem
  have hbump := runFactory_calls_self
    (fun s k => resolve fuel s k defaultOpts)
    (fun s k => resolve_evolves fuel s k defaultOpts)
    (fun s k => resolve_calls fuel s k defaultOpts rfl)
    item.factory none ha1 rfl
  rcases hr : runFactory (fun s k => resolve fuel s k defaultOpts)
      (setInitialized st sid) sid item.factory none with ⟨st2, r⟩
  rw [hr] at hbump
  rw [setInitialized_calls] at hbump
  cases r with
  | error e => exact hbump
  | ok w =>
    show alookup (setInstance st2 sid w).calls sid = _
    rw [setInstance_calls]
    exact hbump

@[simp] theorem bumpCalls_nextAddr (st : InjectorState) (sid : Nat) :
    (bumpCalls st sid).nextAddr = st.nextAddr := rfl

/-- One transient resolution of an identifier whose factory allocates a
plain fresh object: it returns the object at the current allocation
address, advances the allocator, ghost-counts the invocation, and touches
nothing else. -/
theorem resolve_transient_newObj {st : InjectorState} {X : Identifier}
    {sid : Nat} {item : StoreItem} (fuel : Nat) (p : Option Value)
    (hreg : alookup st.registry X = some sid)
    (hitem : alookup st.items sid = some item)
    (hfac : item.factory = .newObj []) :
    resolve (fuel + 1) st X { singleton := false, params := p }
      = ({ st with
           objects := aset st.objects st.nextAddr [],
           nextAddr := st.nextAddr + 1,
           calls := aset st.calls sid ((alookup st.calls sid).getD 0 + 1) },
         .ok (.obj st.nextAddr)) := by
  rw [resolve_transient_eq fuel { singleton := false, params := p } rfl
    hreg hitem, hfac, runFactory_newObj_eq]
  simp only [resolveDeps]
  rfl

theorem alookup_mem {α β : Type} [DecidableEq α] {l : List (α × β)} {k : α}
    {v : β} (h : alookup l k = some v) : (k, v) ∈ l := by
  induction l with
  | nil => simp [alookup] at h
  | cons p rest ih =>
    obtain ⟨a, w⟩ := p
    by_cases ha : a = k
    · subst ha
      simp [alookup] at h
      subst h
      exact List.mem_cons_self ..
    · simp [alookup, ha] at h
      exact List.mem_cons_of_mem _ (ih h)

theorem resolve_noItem_eq {st : InjectorState} {key : Identifier}
    {sid : Nat} (fuel : Nat) (opts : GetOptions)
    (hreg : alookup st.registry key = some sid)
    (hitem : alookup st.items sid = none) :
    resolve (fuel + 1) st key opts = (st, .error .typeError) := by
  simp [resolve, hreg, hitem]

/-- `runFactory` can only hand back a fresh object or a primitive — never a
deferred-reference proxy. -/
theorem runFactory_ok_not_proxy {res : Resolver} {st st2 : InjectorState}
    {sid : Nat} {fac : Factory} {p : Option Value} {v : Value}
    (h : runFactory res st sid fac p = (st2, .ok v)) :
    v.isProxy = false := by
  cases fac with
  | retPrim q =>
    rw [runFactory_retPrim_eq] at h
    injection h with h1 h2
    injection h2 with h2
    rw [← h2]
    rfl
  | throwErr msg =>
    rw [runFactory_throwErr_eq] at h
    injection h with h1 h2
    exact absurd h2 (by simp)
  | newObj deps =>
    rw [runFactory_newObj_eq] at h
    rcases hd : resolveDeps res (bumpCalls st sid) deps with ⟨st1, r⟩
    rw [hd] at h
    cases r with
    | error e => injection h with h1 h2; exact absurd h2 (by simp)
    | ok flds =>
      injection h with h1 h2
      injection h2 with h2
      rw [← h2]
      rfl

/-- Inversion: a default-options resolution that hands back a proxy (on a
state whose instance slots hold no proxies) must have taken the cycle
branch: the proxy is for the requested identifier, the state is unchanged,
and the identifier's StoreItem is initialized with a falsy instance. -/
theorem resolve_ok_proxy_inv {fuel : Nat} {st st' : InjectorState}
    {key k2 : Identifier} (hnp : noProxyInstancesB st = true)
    (h : resolve (fuel + 1) st key defaultOpts = (st', .ok (.proxy k2))) :
    k2 = key ∧ st' = st ∧
    ∃ sid item, alookup st.registry key = some sid ∧
      alookup st.items sid = some item ∧ item.initialized = true ∧
      item.«instance».truthy = false := by
  cases hreg : alookup st.registry key with
  | none =>
    rw [resolve_notRegistered_eq fuel _ hreg] at h
    injection h with h1 h2
    exact absurd h2 (by simp)
  | some sid =>
    cases hitem : alookup st.items sid with
    | none =>
      rw [resolve_noItem_eq fuel _ hreg hitem] at h
      injection h with h1 h2
      exact absurd h2 (by simp)
    | some item =>
      by_cases hinit : item.initialized = true
      · by_cases htr : item.«instance».truthy = true
        · rw [resolve_fast_eq fuel _ rfl hreg hitem hinit htr] at h
          injection h with h1 h2
          injection h2 with h2
          have hpx : item.«instance».isProxy = false := by
            have hall := List.all_eq_true.mp hnp (sid, item) (alookup_mem hitem)
            simpa using hall
          rw [h2] at hpx
          exact absurd hpx (by simp [Value.isProxy])
        · have htr' : item.«instance».truthy = false := by
            cases hh : item.«instance».truthy
            · rfl
            · exact absurd hh htr
          rw [resolve_proxy_eq fuel _ rfl hreg hitem hinit htr'] at h
          injection h with h1 h2
          injection h2 with h2
          injection h2 with h2
          exact ⟨h2.symm, h1.symm, sid, item, rfl, hitem, hinit, htr'⟩
      · have hfalse : item.initialized = false := by
          cases hh : item.initialized
          · rfl
          · exact absurd hh hinit
        rw [resolve_uninit_default_eq fuel hreg hitem hfalse] at h
        rcases hr : runFactory (fun s k => resolve fuel s k defaultOpts)
            (setInitialized st sid) sid item.factory none with ⟨stx, r⟩
        rw [hr] at h
        cases r with
        | error e => injection h with h1 h2; exact absurd h2 (by simp)
        | ok v =>
          injection h with h1 h2
          injection h2 with h2
          have hpx := runFactory_ok_not_proxy hr
          rw [h2] at hpx
          exact absurd hpx (by simp [Value.isProxy])

/-- A deferred reference whose target is still under construction loops:
each forwarded read re-resolves the same identifier, receives the proxy
again, and recurses — the model's fuel runs out (a stack overflow in JS). -/
theorem proxyGet_cycle_loop {st : InjectorState} {key : Identifier}
    {sid : Nat} {item : StoreItem}
    (hreg : alookup st.registry key = some sid)
    (hitem : alookup st.items sid = some item)
    (hinit : item.initialized = true)
    (hempty : item.«instance».truthy = false) :
    ∀ fuel prop, proxyGet fuel st key prop = (st, .error .outOfFuel) := by
  intro fuel
  induction fuel with
  | zero => intro prop; rfl
  | succ n ih =>
    intro prop
    simp only [proxyGet]
    rw [resolve_proxy_eq n defaultOpts rfl hreg hitem hinit hempty]
    simp [Value.typeofObject]
    exact ih prop

/-- The write analogue of `proxyGet_cycle_loop`. -/
theorem proxySet_cycle_loop {st : InjectorState} {key : Identifier}
    {sid : Nat} {item : StoreItem}
    (hreg : alookup st.registry key = some sid)
    (hitem : alookup st.items sid = some item)
    (hinit : item.initialized = true)
    (hempty : item.«instance».truthy = false) :
    ∀ fuel prop w, proxySet fuel st key prop w
      = (st, .error .outOfFuel) := by
  intro fuel
  induction fuel with
  | zero => intro prop w; rfl
  | succ n ih =>
    intro prop w
    simp only [proxySet]
    rw [resolve_proxy_eq n defaultOpts rfl hreg hitem hinit hempty]
    simp [Value.typeofObject]
    exact ih prop w

/-! The claims -/

/-- C1: for two factories registered under distinct identifiers `A` and `B`,
each synchronously resolving the other with default options, `resolve A`
terminates (here: succeeds with finite fuel) and returns the instance built
by A's factory (stored in A's StoreItem); the re-entrant `resolve A` inside
B's factory yielded a deferred-reference proxy (stored in B's instance
object) instead of invoking A's factory a second time — both ghost
invocation counters end at 1. -/
theorem C1_cycle_resolution (a b : Nat) (na nb fa fb : String)
    (hab : a ≠ b) :
    ∃ st' addrA addrB,
      resolve 4 (Injector.add (Injector.add emptyInjector
          (.newObj [(fa, .ctor b nb)]) (.ctor a na) none)
          (.newObj [(fb, .ctor a na)]) (.ctor b nb) none)
        (.ctor a na) defaultOpts = (st', .ok (.obj addrA)) ∧
      alookup st'.items 0 = some { initialized := true,
                                   factory := .newObj [(fa, .ctor b nb)],
                                   «instance» := .obj addrA } ∧
      alookup st'.items 1 = some { initialized := true,
                                   factory := .newObj [(fb, .ctor a na)],
                                   «instance» := .obj addrB } ∧
      alookup st'.objects addrB = some [(fb, .proxy (.ctor a na))] ∧
      alookup st'.objects addrA = some [(fa, .obj addrB)] ∧
      alookup st'.calls 0 = some 1 ∧ alookup st'.calls 1 = some 1 := by
  refine ⟨_, 1, 0, Prod.ext rfl ?_, ?_, ?_, ?_, ?_, ?_, ?_⟩ <;>
    simp [resolve, runFactory, resolveDeps, Injector.add, emptyInjector,
      defaultOpts, setInitialized, setInstance, bumpCalls, alookup, aset,
      Value.truthy, hab, Identifier.ctor.injEq]

theorem C1_cycle_resolution_witness :
    (0 : Nat) ≠ 1 ∧
    ∃ st' addrA addrB,
      resolve 4 (Injector.add (Injector.add emptyInjector
          (.newObj [("b", .ctor 1 "B")]) (.ctor 0 "A") none)
          (.newObj [("a", .ctor 0 "A")]) (.ctor 1 "B") none)
        (.ctor 0 "A") defaultOpts = (st', .ok (.obj addrA)) ∧
      alookup st'.items 0 = some { initialized := true,
                                   factory := .newObj [("b", .ctor 1 "B")],
                                   «instance» := .obj addrA } ∧
      alookup st'.items 1 = some { initialized := true,
                                   factory := .newObj [("a", .ctor 0 "A")],
                                   «instance» := .obj addrB } ∧
      alookup st'.objects addrB = some [("a", .proxy (.ctor 0 "A"))] ∧
      alookup st'.objects addrA = some [("b", .obj addrB)] ∧
      alookup st'.calls 0 = some 1 ∧ alookup st'.calls 1 = some 1 :=
  ⟨by decide, C1_cycle_resolution 0 1 "A" "B" "b" "a" (by decide)⟩

/-- C2: a singleton resolution that finds `initialized = true` with an
empty (falsy) instance slot returns a deferred-reference proxy carrying
only the identifier, without touching the state; every later property read
or write through the proxy first re-resolves that identifier against the
then-current state with default options and forwards the operation to the
resolved object. -/
theorem C2_deferred_reference (st : InjectorState) (key : Identifier)
    (sid : Nat) (item : StoreItem) (fuel : Nat)
    (hreg : alookup st.registry key = some sid)
    (hitem : alookup st.items sid = some item)
    (hinit : item.initialized = true)
    (hempty : item.«instance».truthy = false) :
    resolve (fuel + 1) st key defaultOpts = (st, .ok (.proxy key)) ∧
      (∀ fuel2 st2 st3 prop addr flds,
        resolve (fuel2 + 1) st2 key defaultOpts = (st3, .ok (.obj addr)) →
        alookup st3.objects addr = some flds →
        proxyGet (fuel2 + 1) st2 key prop
          = (st3, .ok ((alookup flds prop).getD (.prim .undef)))) ∧
      (∀ fuel2 st2 st3 prop w addr flds,
        resolve (fuel2 + 1) st2 key defaultOpts = (st3, .ok (.obj addr)) →
        alookup st3.objects addr = some flds →
        proxySet (fuel2 + 1) st2 key prop w
          = ({ st3 with
               objects := aset st3.objects addr (aset flds prop w) },
             .ok true)) := by
  refine ⟨resolve_proxy_eq fuel defaultOpts rfl hreg hitem hinit hempty,
    ?_, ?_⟩
  · intro fuel2 st2 st3 prop addr flds h1 h2
    simp [proxyGet, h1, h2, Value.typeofObject]
  · intro fuel2 st2 st3 prop w addr flds h1 h2
    simp [proxySet, h1, h2, Value.typeofObject]

theorem C2_deferred_reference_witness :
    alookup (setInitialized (Injector.add emptyInjector (.newObj [])
        (.ctor 0 "A") none) 0).registry (.ctor 0 "A") = some 0 ∧
    alookup (setInitialized (Injector.add emptyInjector (.newObj [])
        (.ctor 0 "A") none) 0).items 0
      = some { initialized := true, factory := .newObj [],
               «instance» := .prim .null } ∧
    resolve 1 (setInitialized (Injector.add emptyInjector (.newObj [])
        (.ctor 0 "A") none) 0) (.ctor 0 "A") defaultOpts
      = (setInitialized (Injector.add emptyInjector (.newObj [])
          (.ctor 0 "A") none) 0, .ok (.proxy (.ctor 0 "A"))) := by
  have h := C2_deferred_reference
    (setInitialized (Injector.add emptyInjector (.newObj [])
      (.ctor 0 "A") none) 0) (.ctor 0 "A") 0
    { initialized := true, factory := .newObj [],
      «instance» := .prim .null } 0 rfl rfl rfl rfl
  exact ⟨rfl, rfl, h.1⟩

/-- C3: once a first default-options resolution of a registered identifier
has completed normally (produced a truthy instance), every later
default-options resolution returns the very same instance and the very same
state — and the factory has run exactly once: the first resolution bumped
its ghost invocation counter to entry+1 and later resolutions leave the
state (hence the counter) untouched. -/
theorem C3_singleton_idempotence (st st' : InjectorState) (X : Identifier)
    (sid : Nat) (item : StoreItem) (fuel : Nat) (v : Value)
    (hreg : alookup st.registry X = some sid)
    (hitem : alookup st.items sid = some item)
    (hfalse : item.initialized = false)
    (hres : resolve fuel st X defaultOpts = (st', .ok v))
    (htr : v.truthy = true) :
    (∀ fuel2, resolve (fuel2 + 1) st' X defaultOpts = (st', .ok v)) ∧
      alookup st'.calls sid = some ((alookup st.calls sid).getD 0 + 1) := by
  cases fuel with
  | zero =>
    rw [resolve_zero_eq] at hres
    injection hres with h1 h2
    exact absurd h2 (by simp)
  | succ n =>
    have hitem' := resolve_uninit_success hreg hitem hfalse hres
    have hreg' : alookup st'.registry X = some sid := by
      have hr := resolve_registry (n + 1) st X defaultOpts
      rw [hres] at hr
      simp only at hr
      rw [hr]
      exact hreg
    constructor
    · intro fuel2
      exact resolve_fast_eq fuel2 defaultOpts rfl hreg' hitem' rfl htr
    · have hc := @resolve_uninit_calls n st X sid item hreg hitem hfalse
      rw [hres] at hc
      exact hc

theorem C3_singleton_idempotence_witness :
    alookup (Injector.add emptyInjector (.newObj []) (.ctor 0 "A")
        none).registry (.ctor 0 "A") = some 0 ∧
    alookup (Injector.add emptyInjector (.newObj []) (.ctor 0 "A")
        none).items 0
      = some { initialized := false, factory := .newObj [],
               «instance» := .prim .null } ∧
    (∀ fuel2, resolve (fuel2 + 1)
        (resolve 2 (Injector.add emptyInjector (.newObj []) (.ctor 0 "A")
          none) (.ctor 0 "A") defaultOpts).1 (.ctor 0 "A") defaultOpts
      = ((resolve 2 (Injector.add emptyInjector (.newObj []) (.ctor 0 "A")
          none) (.ctor 0 "A") defaultOpts).1, .ok (.obj 0))) := by
  have h := C3_singleton_idempotence
    (Injector.add emptyInjector (.newObj []) (.ctor 0 "A") none)
    (resolve 2 (Injector.add emptyInjector (.newObj []) (.ctor 0 "A")
      none) (.ctor 0 "A") defaultOpts).1
    (.ctor 0 "A") 0
    { initialized := false, factory := .newObj [],
      «instance» := .prim .null } 2 (.obj 0) rfl rfl rfl rfl rfl
  exact ⟨rfl, rfl, h.1⟩

/-- C4: a transient resolution (`singleton: false`) of a registered
identifier whose factory builds a fresh plain object invokes the factory
and returns a fresh result on every call — two consecutive transient
resolutions yield reference-distinct objects — while leaving the StoreItem
(its `initialized` flag and `instance` slot) and the registry exactly as
they were. -/
theorem C4_transient_freshness (st : InjectorState) (X : Identifier)
    (sid : Nat) (item : StoreItem) (fuel : Nat) (p : Option Value)
    (hreg : alookup st.registry X = some sid)
    (hitem : alookup st.items sid = some item)
    (hfac : item.factory = .newObj []) :
    ∃ st1 st2,
      resolve (fuel + 1) st X { singleton := false, params := p }
        = (st1, .ok (.obj st.nextAddr)) ∧
      resolve (fuel + 1) st1 X { singleton := false, params := p }
        = (st2, .ok (.obj (st.nextAddr + 1))) ∧
      Value.obj st.nextAddr ≠ Value.obj (st.nextAddr + 1) ∧
      alookup st1.items sid = some item ∧
      alookup st2.items sid = some item ∧
      st2.registry = st.registry := by
  have e1 := resolve_transient_newObj fuel p hreg hitem hfac
  have e2 := @resolve_transient_newObj { st with
      objects := aset st.objects st.nextAddr [],
      nextAddr := st.nextAddr + 1,
      calls := aset st.calls sid ((alookup st.calls sid).getD 0 + 1) }
    X sid item fuel p hreg hitem hfac
  exact ⟨_, _, e1, e2, by simp, hitem, hitem, rfl⟩

theorem C4_transient_freshness_witness :
    alookup (Injector.add emptyInjector (.newObj []) (.ctor 0 "A")
        none).registry (.ctor 0 "A") = some 0 ∧
    alookup (Injector.add emptyInjector (.newObj []) (.ctor 0 "A")
        none).items 0
      = some { initialized := false, factory := .newObj [],
               «instance» := .prim .null } ∧
    ∃ st1 st2,
      resolve 1 (Injector.add emptyInjector (.newObj []) (.ctor 0 "A")
          none) (.ctor 0 "A") { singleton := false, params := none }
        = (st1, .ok (.obj 0)) ∧
      resolve 1 st1 (.ctor 0 "A") { singleton := false, params := none }
        = (st2, .ok (.obj 1)) ∧
      Value.obj 0 ≠ Value.obj 1 ∧
      alookup st1.items 0 = some { initialized := false,
                                   factory := .newObj [],
                                   «instance» := .prim .null } ∧
      alookup st2.items 0 = some { initialized := false,
                                   factory := .newObj [],
                                   «instance» := .prim .null } ∧
      st2.registry = (Injector.add emptyInjector (.newObj []) (.ctor 0 "A")
        none).registry :=
  ⟨rfl, rfl, C4_transient_freshness
    (Injector.add emptyInjector (.newObj []) (.ctor 0 "A") none)
    (.ctor 0 "A") 0
    { initialized := false, factory := .newObj [],
      «instance» := .prim .null } 0 none rfl rfl rfl⟩

/-- C5: registering one factory under a key and a token binds both
identifiers to the same StoreItem id, and once a first default-options
resolution through the key completes with a truthy instance, resolving
through the token returns that very instance without changing the state. -/
theorem C5_dual_identifier_aliasing (st : InjectorState) (f : Factory)
    (k t : Nat) (nk dt : String) :
    (alookup (Injector.add st f (.ctor k nk)
        (some (.token t dt))).registry (.ctor k nk) = some st.nextItem ∧
      alookup (Injector.add st f (.ctor k nk)
        (some (.token t dt))).registry (.token t dt) = some st.nextItem) ∧
    ∀ fuel fuel2 st2 v,
      resolve fuel (Injector.add st f (.ctor k nk) (some (.token t dt)))
          (.ctor k nk) defaultOpts = (st2, .ok v) →
      v.truthy = true →
      resolve (fuel2 + 1) st2 (.token t dt) defaultOpts = (st2, .ok v) := by
  have hne : (Identifier.ctor k nk) ≠ .token t dt := fun h =>
    Identifier.noConfusion h
  have hkey : alookup (Injector.add st f (.ctor k nk)
      (some (.token t dt))).registry (.ctor k nk) = some st.nextItem := by
    simp [Injector.add, alookup_aset_self]
  have htok : alookup (Injector.add st f (.ctor k nk)
      (some (.token t dt))).registry (.token t dt) = some st.nextItem := by
    show alookup (aset (aset st.registry (.token t dt) st.nextItem)
      (.ctor k nk) st.nextItem) (.token t dt) = some st.nextItem
    rw [alookup_aset_ne _ _ hne]
    exact alookup_aset_self ..
  have hitem : alookup (Injector.add st f (.ctor k nk)
      (some (.token t dt))).items st.nextItem
      = some { initialized := false, factory := f,
               «instance» := .prim .null } := by
    simp [Injector.add, alookup_aset_self]
  refine ⟨⟨hkey, htok⟩, ?_⟩
  intro fuel fuel2 st2 v hres htr
  cases fuel with
  | zero =>
    rw [resolve_zero_eq] at hres
    injection hres with h1 h2
    exact absurd h2 (by simp)
  | succ n =>
    have hitem2 := resolve_uninit_success hkey hitem rfl hres
    have hreg2 : alookup st2.registry (.token t dt) = some st.nextItem := by
      have hr := resolve_registry (n + 1)
        (Injector.add st f (.ctor k nk) (some (.token t dt)))
        (.ctor k nk) defaultOpts
      rw [hres] at hr
      simp only at hr
      rw [hr]
      exact htok
    exact resolve_fast_eq fuel2 defaultOpts rfl hreg2 hitem2 rfl htr

theorem C5_dual_identifier_aliasing_witness :
    resolve 1 (resolve 2 (Injector.add emptyInjector (.newObj [])
        (.ctor 0 "K") (some (.token 0 "T"))) (.ctor 0 "K") defaultOpts).1
      (.token 0 "T") defaultOpts
    = ((resolve 2 (Injector.add emptyInjector (.newObj []) (.ctor 0 "K")
        (some (.token 0 "T"))) (.ctor 0 "K") defaultOpts).1,
       .ok (.obj 0)) :=
  (C5_dual_identifier_aliasing emptyInjector (.newObj []) 0 0 "K" "T").2
    2 0 _ (.obj 0) rfl rfl

/-- C6: registration creates a StoreItem with `initialized = false` and an
empty instance slot and never touches other StoreItems; across any
resolution every StoreItem keeps its factory forever, an initialized item
is completely frozen, and an item that is still uninitialized afterwards
was not touched at all (so `initialized` flips false→true at most once and
never reverts, and `instance` is assigned at most once). -/
theorem C6_storeitem_invariants :
    (∀ fuel st key opts sid item,
      alookup st.items sid = some item →
      ∃ item',
        alookup (resolve fuel st key opts).1.items sid = some item' ∧
        item'.factory = item.factory ∧
        (item.initialized = true → item' = item) ∧
        (item'.initialized = false → item' = item)) ∧
    (∀ st fac key tok,
      alookup (Injector.add st fac key tok).items st.nextItem
        = some { initialized := false, factory := fac,
                 «instance» := .prim .null } ∧
      ∀ sid item, sid ≠ st.nextItem → alookup st.items sid = some item →
        alookup (Injector.add st fac key tok).items sid = some item) := by
  constructor
  · intro fuel st key opts sid item h
    obtain ⟨b, hb, h1, h2, h3⟩ :=
      (resolve_evolves fuel st key opts).2.2 sid item h
    exact ⟨b, hb, h1, h2, h3⟩
  · intro st fac key tok
    constructor
    · simp [Injector.add, alookup_aset_self]
    · intro sid item hne h
      show alookup (aset st.items st.nextItem _) sid = some item
      rw [alookup_aset_ne _ _ (fun hh => hne hh.symm)]
      exact h

theorem C6_storeitem_invariants_witness :
    alookup (Injector.add emptyInjector (.newObj []) (.ctor 0 "A")
        none).items 0
      = some { initialized := false, factory := .newObj [],
               «instance» := .prim .null } ∧
    ∃ item',
      alookup (resolve 2 (Injector.add emptyInjector (.newObj [])
          (.ctor 0 "A") none) (.ctor 0 "A") defaultOpts).1.items 0
        = some item' ∧
      item'.factory = ({ initialized := false, factory := .newObj [],
                         «instance» := .prim .null } : StoreItem).factory ∧
      (({ initialized := false, factory := .newObj [],
          «instance» := .prim .null } : StoreItem).initialized = true →
        item' = { initialized := false, factory := .newObj [],
                  «instance» := .prim .null }) ∧
      (item'.initialized = false →
        item' = { initialized := false, factory := .newObj [],
                  «instance» := .prim .null }) :=
  ⟨rfl, C6_storeitem_invariants.1 2
    (Injector.add emptyInjector (.newObj []) (.ctor 0 "A") none)
    (.ctor 0 "A") defaultOpts 0
    { initialized := false, factory := .newObj [],
      «instance» := .prim .null } rfl⟩

/-- C7: resolving an identifier with no registry entry fails with a
"not registered" error whose message names the identifier — the token's
description for a token, its string form otherwise — and the injector
state is returned unchanged. -/
theorem C7_unregistered_lookup (fuel : Nat) (st : InjectorState)
    (key : Identifier) (opts : GetOptions)
    (h : alookup st.registry key = none) :
    resolve (fuel + 1) st key opts
        = (st, .error (.notRegistered (notRegisteredMsg key))) ∧
      ∃ pre post, notRegisteredMsg key = pre ++ identDesc key ++ post := by
  refine ⟨resolve_notRegistered_eq fuel opts h, ?_⟩
  cases key with
  | ctor i n => exact ⟨"", " is not registered", by simp [notRegisteredMsg,
      identDesc]⟩
  | token i d => exact ⟨"Token ", " is not registered",
      by simp [notRegisteredMsg, identDesc]⟩

theorem C7_unregistered_lookup_witness :
    alookup emptyInjector.registry (.token 5 "Cfg") = none ∧
    (resolve 1 emptyInjector (.token 5 "Cfg") defaultOpts
        = (emptyInjector,
           .error (.notRegistered (notRegisteredMsg (.token 5 "Cfg")))) ∧
      ∃ pre post, notRegisteredMsg (.token 5 "Cfg")
        = pre ++ identDesc (.token 5 "Cfg") ++ post) :=
  ⟨rfl, C7_unregistered_lookup 0 emptyInjector (.token 5 "Cfg")
    defaultOpts rfl⟩

/-- C9: re-registering the same key builds a fresh StoreItem (initialized
false, instance empty) and overwrites only that key's binding: a token
bound by the earlier registration still points at the old StoreItem, whose
factory is the old one. -/
theorem C9_reregister_stale_token (st : InjectorState) (f g : Factory)
    (k t : Nat) (nk dt : String) :
    alookup (Injector.add (Injector.add st f (.ctor k nk)
        (some (.token t dt))) g (.ctor k nk) none).registry (.token t dt)
      = some st.nextItem ∧
    alookup (Injector.add (Injector.add st f (.ctor k nk)
        (some (.token t dt))) g (.ctor k nk) none).registry (.ctor k nk)
      = some (st.nextItem + 1) ∧
    st.nextItem ≠ st.nextItem + 1 ∧
    alookup (Injector.add (Injector.add st f (.ctor k nk)
        (some (.token t dt))) g (.ctor k nk) none).items st.nextItem
      = some { initialized := false, factory := f,
               «instance» := .prim .null } ∧
    alookup (Injector.add (Injector.add st f (.ctor k nk)
        (some (.token t dt))) g (.ctor k nk) none).items (st.nextItem + 1)
      = some { initialized := false, factory := g,
               «instance» := .prim .null } := by
  have hne : (Identifier.ctor k nk) ≠ .token t dt := fun h =>
    Identifier.noConfusion h
  refine ⟨?_, ?_, by simp, ?_, ?_⟩
  · show alookup (aset (aset (aset st.registry (.token t dt) st.nextItem)
      (.ctor k nk) st.nextItem) (.ctor k nk) (st.nextItem + 1))
      (.token t dt) = some st.nextItem
    rw [alookup_aset_ne _ _ hne, alookup_aset_ne _ _ hne]
    exact alookup_aset_self ..
  · exact alookup_aset_self ..
  · show alookup (aset (aset st.items st.nextItem
      { initialized := false, factory := f, «instance» := .prim .null })
      (st.nextItem + 1)
      { initialized := false, factory := g, «instance» := .prim .null })
      st.nextItem = _
    rw [alookup_aset_ne _ _ (by simp : st.nextItem + 1 ≠ st.nextItem)]
    exact alookup_aset_self ..
  · exact alookup_aset_self ..

theorem C9_reregister_stale_token_witness :
    alookup (Injector.add (Injector.add emptyInjector (.newObj [])
        (.ctor 0 "K") (some (.token 0 "T"))) (.retPrim .null) (.ctor 0 "K")
        none).registry (.token 0 "T") = some emptyInjector.nextItem ∧
    alookup (Injector.add (Injector.add emptyInjector (.newObj [])
        (.ctor 0 "K") (some (.token 0 "T"))) (.retPrim .null) (.ctor 0 "K")
        none).registry (.ctor 0 "K") = some (emptyInjector.nextItem + 1) ∧
    emptyInjector.nextItem ≠ emptyInjector.nextItem + 1 ∧
    alookup (Injector.add (Injector.add emptyInjector (.newObj [])
        (.ctor 0 "K") (some (.token 0 "T"))) (.retPrim .null) (.ctor 0 "K")
        none).items emptyInjector.nextItem
      = some { initialized := false, factory := .newObj [],
               «instance» := .prim .null } ∧
    alookup (Injector.add (Injector.add emptyInjector (.newObj [])
        (.ctor 0 "K") (some (.token 0 "T"))) (.retPrim .null) (.ctor 0 "K")
        none).items (emptyInjector.nextItem + 1)
      = some { initialized := false, factory := .retPrim .null,
               «instance» := .prim .null } :=
  C9_reregister_stale_token emptyInjector (.newObj []) (.retPrim .null)
    0 0 "K" "T"

/-- C10: a factory that throws during the first singleton resolution lets
the error propagate while leaving the StoreItem initialized with an empty
instance slot — poisoned: every later singleton resolution returns a
deferred-reference proxy, as if construction were forever in progress, and
never re-invokes the factory (the ghost counter stays at its value after
the single failed invocation). -/
theorem C10_throwing_factory_poisons (st : InjectorState) (X : Identifier)
    (sid : Nat) (m : String) (fuel : Nat)
    (hreg : alookup st.registry X = some sid)
    (hitem : alookup st.items sid
      = some { initialized := false, factory := .throwErr m,
               «instance» := .prim .null }) :
    ∃ st', resolve (fuel + 1) st X defaultOpts
        = (st', .error (.userError m)) ∧
      alookup st'.items sid
        = some { initialized := true, factory := .throwErr m,
                 «instance» := .prim .null } ∧
      st'.registry = st.registry ∧
      (∀ fuel2, resolve (fuel2 + 1) st' X defaultOpts
        = (st', .ok (.proxy X))) ∧
      alookup st'.calls sid = some ((alookup st.calls sid).getD 0 + 1) := by
  have heq := resolve_uninit_default_eq fuel hreg hitem rfl
  rw [runFactory_throwErr_eq] at heq
  have hitems' : alookup (bumpCalls (setInitialized st sid) sid).items sid
      = some { initialized := true, factory := .throwErr m,
               «instance» := .prim .null } := by
    rw [bumpCalls_items, setInitialized_items_self hitem]
  have hregs' : (bumpCalls (setInitialized st sid) sid).registry
      = st.registry := by
    rw [bumpCalls_registry, setInitialized_registry]
  refine ⟨bumpCalls (setInitialized st sid) sid, heq, hitems', hregs',
    ?_, ?_⟩
  · intro fuel2
    exact resolve_proxy_eq fuel2 defaultOpts rfl
      (by rw [hregs']; exact hreg) hitems' rfl rfl
  · rw [bumpCalls_calls_self, setInitialized_calls]

theorem C10_throwing_factory_poisons_witness :
    alookup (Injector.add emptyInjector (.throwErr "boom") (.ctor 0 "A")
        none).registry (.ctor 0 "A") = some 0 ∧
    alookup (Injector.add emptyInjector (.throwErr "boom") (.ctor 0 "A")
        none).items 0
      = some { initialized := false, factory := .throwErr "boom",
               «instance» := .prim .null } ∧
    ∃ st', resolve 1 (Injector.add emptyInjector (.throwErr "boom")
          (.ctor 0 "A") none) (.ctor 0 "A") defaultOpts
        = (st', .error (.userError "boom")) ∧
      alookup st'.items 0
        = some { initialized := true, factory := .throwErr "boom",
                 «instance» := .prim .null } ∧
      st'.registry = (Injector.add emptyInjector (.throwErr "boom")
        (.ctor 0 "A") none).registry ∧
      (∀ fuel2, resolve (fuel2 + 1) st' (.ctor 0 "A") defaultOpts
        = (st', .ok (.proxy (.ctor 0 "A")))) ∧
      alookup st'.calls 0
        = some ((alookup (Injector.add emptyInjector (.throwErr "boom")
            (.ctor 0 "A") none).calls 0).getD 0 + 1) :=
  ⟨rfl, rfl, C10_throwing_factory_poisons
    (Injector.add emptyInjector (.throwErr "boom") (.ctor 0 "A") none)
    (.ctor 0 "A") 0 "boom" 0 rfl rfl⟩

/-- C8: a property read or write through a deferred reference fails with an
InstanceNotFound error naming the identifier exactly when the re-invoked
resolve for that identifier yields a non-object value; an object target
gets the operation forwarded to it, and a target that is itself the
still-cyclic proxy recurses until the stack (fuel) is exhausted — never an
InstanceNotFound. -/
theorem C8_instance_not_found (st st1 : InjectorState) (key : Identifier)
    (target : Value) (fuel : Nat) (prop : String) (w : Value)
    (hnp : noProxyInstancesB st = true)
    (hres : resolve (fuel + 1) st key defaultOpts = (st1, .ok target)) :
    ((proxyGet (fuel + 1) st key prop).2
        = .error (.instanceNotFound (instNotFoundMsg key))
      ↔ target.typeofObject = false) ∧
    ((proxySet (fuel + 1) st key prop w).2
        = .error (.instanceNotFound (instNotFoundMsg key))
      ↔ target.typeofObject = false) ∧
    (target.typeofObject = false →
      proxyGet (fuel + 1) st key prop
        = (st1, .error (.instanceNotFound (instNotFoundMsg key))) ∧
      proxySet (fuel + 1) st key prop w
        = (st1, .error (.instanceNotFound (instNotFoundMsg key)))) ∧
    (∀ addr flds, target = .obj addr →
      alookup st1.objects addr = some flds →
      proxyGet (fuel + 1) st key prop
        = (st1, .ok ((alookup flds prop).getD (.prim .undef))) ∧
      proxySet (fuel + 1) st key prop w
        = ({ st1 with
             objects := aset st1.objects addr (aset flds prop w) },
           .ok true)) := by
  cases target with
  | obj addr =>
    cases hfl : alookup st1.objects addr with
    | none =>
      have hg : proxyGet (fuel + 1) st key prop
          = (st1, .error .typeError) := by
        simp [proxyGet, hres, Value.typeofObject, hfl]
      have hs : proxySet (fuel + 1) st key prop w
          = (st1, .error .typeError) := by
        simp [proxySet, hres, Value.typeofObject, hfl]
      refine ⟨?_, ?_, ?_, ?_⟩
      · rw [hg]; simp [Value.typeofObject]
      · rw [hs]; simp [Value.typeofObject]
      · intro hto; simp [Value.typeofObject] at hto
      · intro addr' flds heq hlook
        injection heq with heq
        subst heq
        rw [hfl] at hlook
        exact absurd hlook (by simp)
    | some flds =>
      have hg : proxyGet (fuel + 1) st key prop
          = (st1, .ok ((alookup flds prop).getD (.prim .undef))) := by
        simp [proxyGet, hres, Value.typeofObject, hfl]
      have hs : proxySet (fuel + 1) st key prop w
          = ({ st1 with
               objects := aset st1.objects addr (aset flds prop w) },
             .ok true) := by
        simp [proxySet, hres, Value.typeofObject, hfl]
      refine ⟨?_, ?_, ?_, ?_⟩
      · rw [hg]; simp [Value.typeofObject]
      · rw [hs]; simp [Value.typeofObject]
      · intro hto; simp [Value.typeofObject] at hto
      · intro addr' flds' heq hlook
        injection heq with heq
        subst heq
        rw [hfl] at hlook
        injection hlook with hlook
        subst hlook
        exact ⟨hg, hs⟩
  | proxy k2 =>
    obtain ⟨hk, hst, sid, item, hreg, hitem, hinit, hempty⟩ :=
      resolve_ok_proxy_inv hnp hres
    subst hk
    subst hst
    have hg := proxyGet_cycle_loop hreg hitem hinit hempty (fuel + 1) prop
    have hs := proxySet_cycle_loop hreg hitem hinit hempty (fuel + 1) prop w
    refine ⟨?_, ?_, ?_, ?_⟩
    · rw [hg]; simp [Value.typeofObject]
    · rw [hs]; simp [Value.typeofObject]
    · intro hto; simp [Value.typeofObject] at hto
    · intro addr flds heq; exact absurd heq (by simp)
  | prim p =>
    by_cases hp : p = Prim.null
    · subst hp
      have hg : proxyGet (fuel + 1) st key prop
          = (st1, .error .typeError) := by
        simp [proxyGet, hres, Value.typeofObject]
      have hs : proxySet (fuel + 1) st key prop w
          = (st1, .error .typeError) := by
        simp [proxySet, hres, Value.typeofObject]
      refine ⟨?_, ?_, ?_, ?_⟩
      · rw [hg]; simp [Value.typeofObject]
      · rw [hs]; simp [Value.typeofObject]
      · intro hto; simp [Value.typeofObject] at hto
      · intro addr flds heq; exact absurd heq (by simp)
    · have hto : Value.typeofObject (.prim p) = false := by
        cases p with
        | null => exact absurd rfl hp
        | undef => rfl
        | str s => rfl
        | num n => rfl
        | bool b => rfl
      have hg : proxyGet (fuel + 1) st key prop
          = (st1, .error (.instanceNotFound (instNotFoundMsg key))) := by
        simp [proxyGet, hres, hto]
      have hs : proxySet (fuel + 1) st key prop w
          = (st1, .error (.instanceNotFound (instNotFoundMsg key))) := by
        simp [proxySet, hres, hto]
      refine ⟨?_, ?_, ?_, ?_⟩
      · rw [hg]; simp [hto]
      · rw [hs]; simp [hto]
      · intro h0; exact ⟨hg, hs⟩
      · intro addr flds heq; exact absurd heq (by simp)

theorem C8_instance_not_found_witness :
    noProxyInstancesB primInstanceState = true ∧
    resolve 1 primInstanceState (.ctor 0 "A") defaultOpts
      = (primInstanceState, .ok (.prim (.str "x"))) ∧
    (((proxyGet 1 primInstanceState (.ctor 0 "A") "p").2
        = .error (.instanceNotFound (instNotFoundMsg (.ctor 0 "A")))
      ↔ Value.typeofObject (.prim (.str "x")) = false) ∧
     ((proxySet 1 primInstanceState (.ctor 0 "A") "p" (.prim .null)).2
        = .error (.instanceNotFound (instNotFoundMsg (.ctor 0 "A")))
      ↔ Value.typeofObject (.prim (.str "x")) = false) ∧
     (Value.typeofObject (.prim (.str "x")) = false →
       proxyGet 1 primInstanceState (.ctor 0 "A") "p"
         = (primInstanceState,
            .error (.instanceNotFound (instNotFoundMsg (.ctor 0 "A")))) ∧
       proxySet 1 primInstanceState (.ctor 0 "A") "p" (.prim .null)
         = (primInstanceState,
            .error (.instanceNotFound (instNotFoundMsg (.ctor 0 "A"))))) ∧
     (∀ addr flds, Value.prim (.str "x") = .obj addr →
       alookup primInstanceState.objects addr = some flds →
       proxyGet 1 primInstanceState (.ctor 0 "A") "p"
         = (primInstanceState,
            .ok ((alookup flds "p").getD (.prim .undef))) ∧
       proxySet 1 primInstanceState (.ctor 0 "A") "p" (.prim .null)
         = ({ primInstanceState with
              objects := aset primInstanceState.objects addr
                          (aset flds "p" (.prim .null)) },
            .ok true))) :=
  ⟨rfl, rfl, C8_instance_not_found primInstanceState primInstanceState
    (.ctor 0 "A") (.prim (.str "x")) 0 "p" (.prim .null) rfl rfl⟩

end DiLib
